import Mathlib

/-!
Verification development for nvim-simple-keybind-helper (main.go).

The program is a terminal UI showing a searchable table of editor keybindings.
This file gives a shallow embedding of its core logic:

* `lowerString`, `trimString`, `charsContain` — the string primitives used by
  the Go code (`strings.ToLower`, `strings.TrimSpace`, `strings.Contains`),
  modelled character-wise over `List Char`.
* `parseFlags` / `resolveConfigPath` — the CLI resolution built on Go's
  `flag` package with a single registered string flag `config`
  (`flag.ContinueOnError` semantics: parsing stops at the first non-flag
  argument or at the `--` terminator; unknown flags, `-h`/`-help`, bad flag
  syntax and a missing value for `-config` are errors).
* `appConfig`, `defaultConfig`, `normalizeConfig`, `loadConfig` — the
  configuration structure, the built-in default table, and the defaulting
  rules applied after a successful JSON unmarshal.  File reading and JSON
  decoding are external (os / encoding-json); they enter the model as the
  `readResult` and `unmarshal` parameters of `loadConfig`.
* `Model`, `Model.filterRows`, `Model.update` — the bubbletea model: the
  row filter and the key-event dispatcher.  The external text-input widget
  is abstracted by a parameter `tiUpdate : String → String → String`
  (current value and key string to new value); the external table widget
  stores the displayed rows (`tableRows`) and its navigation never changes
  them, so a navigation event leaves `tableRows` untouched.
-/

namespace NvimKeybindHelper

/-- Character-wise lowercasing, embedding `strings.ToLower` as used on the
ASCII data of this program. -/
def lowerString (s : String) : String :=
  String.mk (s.toList.map Char.toLower)

/-- Trim whitespace from both ends, embedding `strings.TrimSpace`. -/
def trimString (s : String) : String :=
  String.mk (((s.toList.dropWhile Char.isWhitespace).reverse.dropWhile
    Char.isWhitespace).reverse)

/-- `charsContain hay needle` is true iff `needle` occurs contiguously inside
`hay`; embedding of `strings.Contains hay needle`. -/
def charsContain : List Char → List Char → Bool
  | [], needle => needle.isEmpty
  | c :: t, needle => List.isPrefixOf needle (c :: t) || charsContain t needle

/-- A table row, as in `table.Row` (a list of cell strings); the rows this
program builds always have the three cells mode/keybind/action. -/
abbrev Row := List String

/-- One row matches a (pre-lowered) query iff some field, lowercased,
contains the query; the Go inner loop over `row` with `break`. -/
def rowMatches (query : String) (row : Row) : Bool :=
  row.any (fun col => charsContain (lowerString col).toList query.toList)

/-- The filtering pass of `filterRows`: lower the query; an empty query
yields the full row set, otherwise keep exactly the rows with a matching
field, in order. -/
def filterRowsList (allRows : List Row) (query : String) : List Row :=
  let query := lowerString query
  if query = "" then allRows
  else allRows.filter (fun row => rowMatches query row)

/-- The bubbletea model: displayed rows (held by the table widget), the
immutable full row set, the search input's value and focus, and the mode
flag. -/
structure Model where
  tableRows : List Row
  allRows : List Row
  searchValue : String
  searchFocused : Bool
  searchMode : Bool
deriving DecidableEq

/-- `(*model).filterRows`: recompute the displayed rows from `allRows` and
the query via `m.table.SetRows`. -/
def Model.filterRows (m : Model) (query : String) : Model :=
  { m with tableRows := filterRowsList m.allRows query }

/-- An incoming bubbletea message: a key press carrying its `msg.String()`,
or any non-key message. -/
inductive Msg where
  | key (s : String)
  | other
deriving DecidableEq

/-- The command returned by `Update`: `tea.Quit`, a command coming from the
search input widget, a command coming from the table widget, or `nil`. -/
inductive TCmd where
  | quit
  | fromSearch
  | fromTable
  | noCmd
deriving DecidableEq

/-- `model.Update`, parameterized by the external text input's update
function `tiUpdate` (current value and key string to new value). -/
def Model.update (tiUpdate : String → String → String) (m : Model)
    (msg : Msg) : Model × TCmd :=
  match msg with
  | Msg.key s =>
    if s = "ctrl+c" then (m, TCmd.quit)
    else if m.searchMode then
      if s = "enter" then
        ({ m with searchMode := false, searchFocused := false }, TCmd.noCmd)
      else if s = "esc" then
        (Model.filterRows
          { m with searchMode := false, searchFocused := false,
                   searchValue := "" } "", TCmd.noCmd)
      else
        let newValue := tiUpdate m.searchValue s
        (Model.filterRows { m with searchValue := newValue } newValue,
          TCmd.fromSearch)
    else
      if s = "/" then
        ({ m with searchMode := true, searchFocused := true,
                  searchValue := "" }, TCmd.noCmd)
      else if s = "q" then (m, TCmd.quit)
      else (m, TCmd.fromTable)
  | Msg.other => (m, TCmd.fromTable)

/-- A concrete text-input behaviour used for witnesses: typing a printable
key appends it to the value. -/
def tiAppend : String → String → String := fun v s => v ++ s

/-- `columnConfig`: one table header cell. -/
structure columnConfig where
  Title : String
  Width : Int
deriving DecidableEq

/-- `rowConfig`: one keybind row of the configuration file. -/
structure rowConfig where
  Mode : String
  Keybind : String
  Action : String
deriving DecidableEq

/-- `appConfig`: the configuration shape.  `Rows` is an `Option` to keep
Go's distinction between a nil slice (field absent) and a present slice. -/
structure appConfig where
  Columns : List columnConfig
  Rows : Option (List rowConfig)
  Height : Int
deriving DecidableEq

/-- The Go zero value `appConfig{}` (nil slices, height 0). -/
def appConfigZero : appConfig :=
  { Columns := [], Rows := none, Height := 0 }

/-- `defaultConfig`: the built-in table. -/
def defaultConfig : appConfig :=
  { Columns := [
      { Title := "Mode", Width := 8 },
      { Title := "Keybind", Width := 16 },
      { Title := "Action", Width := 80 }],
    Rows := some [
      { Mode := "visual", Keybind := "y", Action := "yank (copy) selection" },
      { Mode := "visual", Keybind := ">", Action := "indent selection right" },
      { Mode := "visual", Keybind := "<", Action := "indent selection left" },
      { Mode := "insert", Keybind := "<C-h>", Action := "delete previous character" },
      { Mode := "insert", Keybind := "<C-w>", Action := "delete all from the cursor back to  word boundary (space or punctuation)" },
      { Mode := "insert", Keybind := "<C-c>", Action := "exit insert mode" },
      { Mode := "insert", Keybind := "<Esc>", Action := "exit insert mode" },
      { Mode := "normal", Keybind := "5h 20j 3k 4l", Action := "move cursor left/down/up/right by amount" },
      { Mode := "normal", Keybind := "h j k l", Action := "move cursor left/down/up/right" },
      { Mode := "normal", Keybind := "w", Action := "move to next word" },
      { Mode := "normal", Keybind := "b", Action := "move to previous word" },
      { Mode := "normal", Keybind := "gg", Action := "go to top of file" },
      { Mode := "normal", Keybind := "G", Action := "go to bottom of file" },
      { Mode := "normal", Keybind := "0", Action := "go to beginning of line" },
      { Mode := "normal", Keybind := "$", Action := "go to end of line" },
      { Mode := "normal", Keybind := "<C-f>", Action := "page down and centre, we added zz" },
      { Mode := "normal", Keybind := "<C-b>", Action := "page up and centre, we added zz" },
      { Mode := "normal", Keybind := "dd", Action := "delete (cut) current line" },
      { Mode := "normal", Keybind := "yy", Action := "yank current line" },
      { Mode := "normal", Keybind := "<S-P>", Action := "paste clipboard" },
      { Mode := "normal", Keybind := "p", Action := "paste after cursor" },
      { Mode := "normal", Keybind := "u", Action := "undo last change" },
      { Mode := "normal", Keybind := "<C-r>", Action := "redo last undone change" },
      { Mode := "normal", Keybind := "/", Action := "search forward" },
      { Mode := "normal", Keybind := "?", Action := "search backward" },
      { Mode := "normal", Keybind := "n", Action := "next search match (need to use / or ? before hand)" },
      { Mode := "normal", Keybind := "N", Action := "previous search match (need to use / or ? before hand)" },
      { Mode := "normal", Keybind := "<C-o>", Action := "jump back from jump list (anything that moves the cursor counts as this)" },
      { Mode := "normal", Keybind := "<C-i>", Action := "jump forward in jump list (anything that moves the cursor counts as this)" },
      { Mode := "normal", Keybind := "gd", Action := "go to definition (LSP if attached)" },
      { Mode := "normal", Keybind := "grr", Action := "show references (LSP)" },
      { Mode := "normal", Keybind := "K", Action := "hover documentation (LSP or man page)" },
      { Mode := "normal", Keybind := "<leader>h", Action := "open harpoon menu" },
      { Mode := "normal", Keybind := "<leader>a", Action := "append current file to harpoon" },
      { Mode := "normal", Keybind := "<leader>fo", Action := "format and organize imports" },
      { Mode := "normal", Keybind := "<leader>ff", Action := "find file in project" },
      { Mode := "normal", Keybind := "di\"", Action := "delete inside current double quotes" },
      { Mode := "normal", Keybind := "da\"", Action := "delete around current double quotes (including quotes)" },
      { Mode := "normal", Keybind := "dw", Action := "delete from cursor to start of next word" },
      { Mode := "normal", Keybind := "db", Action := "delete from cursor to start of previous word" },
      { Mode := "normal", Keybind := "diw", Action := "delete inner word (current word only)" },
      { Mode := "normal", Keybind := "daw", Action := "delete around word (word plus surrounding space)" },
      { Mode := "normal", Keybind := "ciw", Action := "change inner word (delete current word, and puts in insert mode)" },
      { Mode := "normal", Keybind := "yiw", Action := "yank inner word" },
      { Mode := "normal", Keybind := "di(", Action := "delete inside parentheses" },
      { Mode := "normal", Keybind := "da(", Action := "delete around parentheses" }],
    Height := 7 }

/-- The defaulting rules of `loadConfig` applied after a successful
unmarshal: empty columns get the default columns, non-positive height gets
the default height, a nil rows slice becomes the empty slice. -/
def normalizeConfig (cfg : appConfig) : appConfig :=
  let defaultCfg := defaultConfig
  let cfg1 := if cfg.Columns = [] then { cfg with Columns := defaultCfg.Columns } else cfg
  let cfg2 := if cfg1.Height ≤ 0 then { cfg1 with Height := defaultCfg.Height } else cfg1
  if cfg2.Rows = none then { cfg2 with Rows := some ([] : List rowConfig) } else cfg2

/-- `loadConfig`, with the filesystem and the JSON decoder abstracted as
inputs: `readResult` is what `os.ReadFile` produced, `unmarshal` is
`json.Unmarshal` on the file content.  The pair mirrors Go's
`(appConfig, error)` return: on any failure the zero value is returned
together with the error. -/
def loadConfig (readResult : Except String String)
    (unmarshal : String → Except String appConfig) : appConfig × Option String :=
  match readResult with
  | Except.error e => (appConfigZero, some e)
  | Except.ok data =>
    match unmarshal data with
    | Except.error e => (appConfigZero, some e)
    | Except.ok cfg => (normalizeConfig cfg, none)

/-- Classification of one command-line argument by Go's `flag` parse loop:
`--` alone terminates parsing, `-name` / `--name` is a flag token whose body
is everything after the dashes, anything else (including `-` alone and the
empty string) is a non-flag argument that stops parsing. -/
inductive ArgKind where
  | flagBody (name : List Char)
  | terminator
  | positional
deriving DecidableEq

/-- Classify one argument as Go's `parseOne` does. -/
def classifyArg (a : String) : ArgKind :=
  match a.toList with
  | '-' :: '-' :: [] => ArgKind.terminator
  | '-' :: '-' :: c :: cs => ArgKind.flagBody (c :: cs)
  | '-' :: c :: cs => ArgKind.flagBody (c :: cs)
  | _ => ArgKind.positional

/-- Split a flag body at the first `=` into name and optional inline
value, as Go's `parseOne` does. -/
def splitEq : List Char → List Char × Option (List Char)
  | [] => ([], none)
  | c :: rest =>
    if c = '=' then ([], some rest)
    else
      let p := splitEq rest
      (c :: p.1, p.2)

/-- Process one flag body against the single registered string flag
`config`: bad syntax (leading `-` or `=`) is an error, `config` yields its
inline value (`some`) or a request for the next argument (`none`),
`help`/`h` produce `flag.ErrHelp`, anything else is "flag provided but not
defined". -/
def flagAction (name : List Char) : Except String (Option String) :=
  if name.head? = some '-' || name.head? = some '=' then
    Except.error "bad flag syntax"
  else
    let p := splitEq name
    let nm := String.mk p.1
    if nm = "config" then
      match p.2 with
      | some v => Except.ok (some (String.mk v))
      | none => Except.ok none
    else if nm = "help" || nm = "h" then
      Except.error "flag: help requested"
    else
      Except.error ("flag provided but not defined: -" ++ nm)

/-- The parse loop of `flags.Parse` for the one registered string flag
`config`, threading the flag's current value (initially its default `""`);
a string flag without an inline value consumes the following argument. -/
def parseFlags : List String → String → Except String String
  | [], conf => Except.ok conf
  | a :: rest, conf =>
    match classifyArg a with
    | ArgKind.terminator => Except.ok conf
    | ArgKind.positional => Except.ok conf
    | ArgKind.flagBody name =>
      match flagAction name with
      | Except.error e => Except.error e
      | Except.ok (some v) => parseFlags rest v
      | Except.ok none =>
        match rest with
        | v :: rest2 => parseFlags rest2 v
        | [] => Except.error "flag needs an argument: -config"

/-- `resolveConfigPath`: parse the flags; the trimmed flag value wins when
non-empty, otherwise the trimmed environment value. -/
def resolveConfigPath (args : List String) (envValue : String) :
    Except String String :=
  match parseFlags args "" with
  | Except.error e => Except.error e
  | Except.ok flagValue =>
    let path := trimString flagValue
    if path ≠ "" then Except.ok path
    else Except.ok (trimString envValue)

end NvimKeybindHelper

namespace NvimKeybindHelper

deriving instance DecidableEq for Except

/-! ### Helper lemmas -/

theorem charsContain_nil (hay : List Char) : charsContain hay [] = true := by
  cases hay with
  | nil => rfl
  | cons c t => simp [charsContain, List.isPrefixOf]

theorem rowMatches_empty_query (r : Row) (h : r ≠ []) : rowMatches "" r = true := by
  match r with
  | [] => exact absurd rfl h
  | col :: rest =>
    have h0 : ("" : String).toList = ([] : List Char) := rfl
    simp [rowMatches, h0, charsContain_nil]

theorem filterRowsList_empty_query (rows : List Row) :
    filterRowsList rows "" = rows := rfl

theorem normalizeConfig_spec (cfg : appConfig) :
    (cfg.Columns = [] → (normalizeConfig cfg).Columns = defaultConfig.Columns)
    ∧ (cfg.Height ≤ 0 → (normalizeConfig cfg).Height = 7)
    ∧ (cfg.Rows = none → (normalizeConfig cfg).Rows = some [])
    ∧ (normalizeConfig cfg).Rows ≠ none := by
  have hH : defaultConfig.Height = 7 := rfl
  by_cases h1 : cfg.Columns = [] <;> by_cases h2 : cfg.Height ≤ 0 <;>
    by_cases h3 : cfg.Rows = none <;>
    simp [normalizeConfig, h1, h2, h3, hH]

/-! ### Claim theorems -/

/-- Claim C1: for every row set and query, `filterRows` sets the displayed
rows to exactly the ordered subsequence of rows (here: the spec's rows of
three fields) in which at least one field contains the lowercased query as
a case-insensitive substring, and it never mutates `allRows`. -/
theorem filterRows_spec (m : Model) (query : String)
    (h3 : ∀ r ∈ m.allRows, r.length = 3) :
    (m.filterRows query).tableRows
        = m.allRows.filter (fun row => rowMatches (lowerString query) row)
      ∧ (m.filterRows query).allRows = m.allRows
      ∧ List.Sublist (m.filterRows query).tableRows m.allRows := by
  refine ⟨?_, rfl, ?_⟩
  · show filterRowsList m.allRows query
        = m.allRows.filter (fun row => rowMatches (lowerString query) row)
    by_cases hq : lowerString query = ""
    · have hfull : filterRowsList m.allRows query = m.allRows := by
        simp only [filterRowsList]
        rw [if_pos hq]
      rw [hfull]
      symm
      rw [List.filter_eq_self]
      intro r hr
      rw [hq]
      refine rowMatches_empty_query r ?_
      intro h0
      have := h3 r hr
      rw [h0] at this
      simp at this
    · simp only [filterRowsList]
      rw [if_neg hq]
  · show List.Sublist (filterRowsList m.allRows query) m.allRows
    by_cases hq : lowerString query = ""
    · simp only [filterRowsList]
      rw [if_pos hq]
    · simp only [filterRowsList]
      rw [if_neg hq]
      exact List.filter_sublist _

/-- Witness for C1 at a concrete two-row model and the query "GD". -/
theorem filterRows_spec_witness :
    let m : Model :=
      ⟨[["normal", "gd", "go"], ["insert", "x", "y"]],
       [["normal", "gd", "go"], ["insert", "x", "y"]], "", false, false⟩
    (∀ r ∈ m.allRows, r.length = 3)
    ∧ ((m.filterRows "GD").tableRows
          = m.allRows.filter (fun row => rowMatches (lowerString "GD") row)
       ∧ (m.filterRows "GD").allRows = m.allRows
       ∧ List.Sublist (m.filterRows "GD").tableRows m.allRows) :=
  ⟨by decide, filterRows_spec _ "GD" (by decide)⟩

/-- Claim C2: whenever flag parsing succeeds with flag value `flagValue`,
`resolveConfigPath` returns the trimmed flag value if that is non-empty and
the trimmed environment value otherwise (so the empty string when both are
blank); it is a pure function of its inputs. -/
theorem resolveConfigPath_spec (args : List String) (envValue flagValue : String)
    (h : parseFlags args "" = Except.ok flagValue) :
    resolveConfigPath args envValue =
      Except.ok (if trimString flagValue = "" then trimString envValue
                 else trimString flagValue) := by
  unfold resolveConfigPath
  rw [h]
  by_cases hp : trimString flagValue = ""
  · simp [hp]
  · simp [hp]

/-- Witness for C2: `--config a` with environment value `b` resolves to `a`. -/
theorem resolveConfigPath_spec_witness :
    parseFlags ["--config", "a"] "" = Except.ok "a"
    ∧ resolveConfigPath ["--config", "a"] "b"
        = Except.ok (if trimString "a" = "" then trimString "b" else trimString "a") :=
  ⟨by decide, resolveConfigPath_spec ["--config", "a"] "b" "a" (by decide)⟩

/-- Claim C3: for every successfully read and parsed configuration file,
`loadConfig` substitutes the built-in default columns when `columns` is
absent or empty, height 7 when `height` is non-positive, and the empty row
sequence (never nil) when `rows` is absent. -/
theorem loadConfig_defaults (readResult : Except String String)
    (unmarshal : String → Except String appConfig) (data : String) (cfg : appConfig)
    (hr : readResult = Except.ok data) (hu : unmarshal data = Except.ok cfg) :
    (loadConfig readResult unmarshal).2 = none
    ∧ (cfg.Columns = [] →
        (loadConfig readResult unmarshal).1.Columns = defaultConfig.Columns)
    ∧ (cfg.Height ≤ 0 → (loadConfig readResult unmarshal).1.Height = 7)
    ∧ (cfg.Rows = none → (loadConfig readResult unmarshal).1.Rows = some [])
    ∧ (loadConfig readResult unmarshal).1.Rows ≠ none := by
  subst hr
  have hl : loadConfig (Except.ok data) unmarshal = (normalizeConfig cfg, none) := by
    simp [loadConfig, hu]
  rw [hl]
  obtain ⟨n1, n2, n3, n4⟩ := normalizeConfig_spec cfg
  exact ⟨rfl, n1, n2, n3, n4⟩

/-- Witness for C3 at a configuration that parses to the zero value. -/
theorem loadConfig_defaults_witness :
    let um := fun _ : String => Except.ok appConfigZero
    (loadConfig (Except.ok "{}") um).2 = none
    ∧ (loadConfig (Except.ok "{}") um).1.Columns = defaultConfig.Columns
    ∧ (loadConfig (Except.ok "{}") um).1.Height = 7
    ∧ (loadConfig (Except.ok "{}") um).1.Rows = some []
    ∧ (loadConfig (Except.ok "{}") um).1.Rows ≠ none := by
  have h := loadConfig_defaults (Except.ok "{}")
    (fun _ : String => Except.ok appConfigZero) "{}" appConfigZero rfl rfl
  exact ⟨h.1, h.2.1 rfl, h.2.2.1 (by decide), h.2.2.2.1 rfl, h.2.2.2.2⟩

/-- Counterexample to claim C4 as stated: an argument list containing
arguments other than the `--config` flag (a positional argument followed by
an unrecognized flag) does not fail; Go's flag parsing stops at the first
non-flag argument and the rest is ignored. -/
theorem resolveConfigPath_positional_ok :
    resolveConfigPath ["hello", "--bogus"] " env " = Except.ok "env" := by decide

/-- Claim C4 (amended): when the first argument is a flag token whose name
(the part before any `=`) is not `config`, `resolveConfigPath` fails with an
error; non-flag arguments instead terminate flag parsing and are ignored. -/
theorem resolveConfigPath_unknownFlag_error (a : String) (rest : List String)
    (envValue : String) (name : List Char)
    (hname : classifyArg a = ArgKind.flagBody name)
    (hnc : String.mk (splitEq name).1 ≠ "config") :
    ∃ e, resolveConfigPath (a :: rest) envValue = Except.error e := by
  have hfa : ∃ e, flagAction name = Except.error e := by
    simp only [flagAction]
    split
    · exact ⟨_, rfl⟩
    · split
      · exact ⟨_, rfl⟩
      · exact ⟨_, rfl⟩
  obtain ⟨e, he⟩ := hfa
  refine ⟨e, ?_⟩
  have hp : parseFlags (a :: rest) "" = Except.error e := by
    cases rest with
    | nil => simp [parseFlags, hname, he]
    | cons b rest2 => simp [parseFlags, hname, he]
  simp [resolveConfigPath, hp]

/-- Witness for the amended C4: `--unknown` is rejected. -/
theorem resolveConfigPath_unknownFlag_error_witness :
    classifyArg "--unknown" = ArgKind.flagBody ['u', 'n', 'k', 'n', 'o', 'w', 'n']
    ∧ String.mk (splitEq ['u', 'n', 'k', 'n', 'o', 'w', 'n']).1 ≠ "config"
    ∧ ∃ e, resolveConfigPath ["--unknown"] "" = Except.error e :=
  ⟨by decide, by decide,
    resolveConfigPath_unknownFlag_error "--unknown" [] ""
      ['u', 'n', 'k', 'n', 'o', 'w', 'n'] (by decide) (by decide)⟩

/-! ### Key-event reduction lemmas for `Model.update` -/

theorem update_key_enter (tiUpdate : String → String → String) (m : Model)
    (hmode : m.searchMode = true) :
    m.update tiUpdate (Msg.key "enter")
      = ({ m with searchMode := false, searchFocused := false }, TCmd.noCmd) := by
  simp [Model.update, hmode]

theorem update_key_esc (tiUpdate : String → String → String) (m : Model)
    (hmode : m.searchMode = true) :
    m.update tiUpdate (Msg.key "esc")
      = (Model.filterRows
          { m with searchMode := false, searchFocused := false,
                   searchValue := "" } "", TCmd.noCmd) := by
  simp [Model.update, hmode]

theorem update_key_search (tiUpdate : String → String → String) (m : Model)
    (s : String) (hmode : m.searchMode = true) (hc : s ≠ "ctrl+c")
    (he : s ≠ "enter") (hesc : s ≠ "esc") :
    m.update tiUpdate (Msg.key s)
      = (Model.filterRows { m with searchValue := tiUpdate m.searchValue s }
          (tiUpdate m.searchValue s), TCmd.fromSearch) := by
  simp [Model.update, hmode, hc, he, hesc]

/-! ### Claim theorems for the interaction controller -/

/-- Counterexample to claim C5 as stated: entering search mode with `/`
clears the query but does not recompute the displayed rows.  After
searching for "g", committing with enter and pressing `/` again, the query
is empty while the displayed rows are still the previously filtered subset,
not the filter of the full row set by the (empty) current query. -/
theorem update_slash_stale_view :
    let rows : List Row := [["normal", "gd", "go to definition"],
      ["insert", "<C-h>", "delete"]]
    let m0 : Model := ⟨rows, rows, "", false, false⟩
    let m1 := (m0.update tiAppend (Msg.key "/")).1
    let m2 := (m1.update tiAppend (Msg.key "g")).1
    let m3 := (m2.update tiAppend (Msg.key "enter")).1
    let m4 := (m3.update tiAppend (Msg.key "/")).1
    m4.searchValue = "" ∧ m4.tableRows ≠ filterRowsList m4.allRows m4.searchValue := by
  decide

/-- Claim C5 (amended): after every key event dispatched while in Searching
mode other than ctrl+c and enter, the displayed rows equal the filter of
the original row set by the current query text (esc clears the query and
any other key updates it before refiltering); the original row set is
untouched.  Entering search mode with `/` clears the query without
recomputing the view. -/
theorem update_search_refilters (tiUpdate : String → String → String)
    (m : Model) (s : String) (hmode : m.searchMode = true) (hc : s ≠ "ctrl+c")
    (he : s ≠ "enter") :
    (m.update tiUpdate (Msg.key s)).1.tableRows
        = filterRowsList (m.update tiUpdate (Msg.key s)).1.allRows
            (m.update tiUpdate (Msg.key s)).1.searchValue
    ∧ (m.update tiUpdate (Msg.key s)).1.allRows = m.allRows := by
  by_cases hesc : s = "esc"
  · subst hesc
    rw [update_key_esc tiUpdate m hmode]
    exact ⟨rfl, rfl⟩
  · rw [update_key_search tiUpdate m s hmode hc he hesc]
    exact ⟨rfl, rfl⟩

/-- Witness for the amended C5 at a concrete searching model and the key "x". -/
theorem update_search_refilters_witness :
    let m : Model := ⟨[["a", "b", "c"]], [["a", "b", "c"]], "", true, true⟩
    m.searchMode = true ∧ ("x" : String) ≠ "ctrl+c" ∧ ("x" : String) ≠ "enter"
    ∧ ((m.update tiAppend (Msg.key "x")).1.tableRows
          = filterRowsList (m.update tiAppend (Msg.key "x")).1.allRows
              (m.update tiAppend (Msg.key "x")).1.searchValue
       ∧ (m.update tiAppend (Msg.key "x")).1.allRows = m.allRows) :=
  ⟨rfl, by decide, by decide,
    update_search_refilters tiAppend _ "x" rfl (by decide) (by decide)⟩

/-- Claim C6: in Searching mode, escape returns to Browsing, clears the
query, and restores exactly the original full row set. -/
theorem update_esc_restores (tiUpdate : String → String → String) (m : Model)
    (hmode : m.searchMode = true) :
    (m.update tiUpdate (Msg.key "esc")).1.searchMode = false
    ∧ (m.update tiUpdate (Msg.key "esc")).1.searchValue = ""
    ∧ (m.update tiUpdate (Msg.key "esc")).1.tableRows = m.allRows
    ∧ (m.update tiUpdate (Msg.key "esc")).1.allRows = m.allRows := by
  rw [update_key_esc tiUpdate m hmode]
  exact ⟨rfl, rfl, filterRowsList_empty_query m.allRows, rfl⟩

/-- Witness for C6 at a concrete searching model with a pending query. -/
theorem update_esc_restores_witness :
    let m : Model := ⟨[["a", "b", "c"]], [["a", "b", "c"]], "q", true, true⟩
    m.searchMode = true
    ∧ ((m.update tiAppend (Msg.key "esc")).1.searchMode = false
       ∧ (m.update tiAppend (Msg.key "esc")).1.searchValue = ""
       ∧ (m.update tiAppend (Msg.key "esc")).1.tableRows = m.allRows
       ∧ (m.update tiAppend (Msg.key "esc")).1.allRows = m.allRows) :=
  ⟨rfl, update_esc_restores tiAppend _ rfl⟩

/-- Claim C9: in Searching mode, enter returns to Browsing and leaves the
query text, the displayed rows and the original row set unchanged; the
returned command is nil. -/
theorem update_enter_commits (tiUpdate : String → String → String) (m : Model)
    (hmode : m.searchMode = true) :
    (m.update tiUpdate (Msg.key "enter")).1.searchMode = false
    ∧ (m.update tiUpdate (Msg.key "enter")).1.searchValue = m.searchValue
    ∧ (m.update tiUpdate (Msg.key "enter")).1.tableRows = m.tableRows
    ∧ (m.update tiUpdate (Msg.key "enter")).1.allRows = m.allRows
    ∧ (m.update tiUpdate (Msg.key "enter")).2 = TCmd.noCmd := by
  rw [update_key_enter tiUpdate m hmode]
  exact ⟨rfl, rfl, rfl, rfl, rfl⟩

/-- Witness for C9 at a concrete searching model with a filtered view. -/
theorem update_enter_commits_witness :
    let m : Model := ⟨[["a", "b", "c"]], [["a", "b", "c"], ["d", "e", "f"]], "a", true, true⟩
    m.searchMode = true
    ∧ ((m.update tiAppend (Msg.key "enter")).1.searchMode = false
       ∧ (m.update tiAppend (Msg.key "enter")).1.searchValue = m.searchValue
       ∧ (m.update tiAppend (Msg.key "enter")).1.tableRows = m.tableRows
       ∧ (m.update tiAppend (Msg.key "enter")).1.allRows = m.allRows
       ∧ (m.update tiAppend (Msg.key "enter")).2 = TCmd.noCmd) :=
  ⟨rfl, update_enter_commits tiAppend _ rfl⟩

/-- Claim C10: in Searching mode the key "q" never quits: it is forwarded
to the search input as query text and the rows are refiltered, while
ctrl+c still quits; in Browsing mode "q" quits. -/
theorem update_q_search_no_quit (tiUpdate : String → String → String)
    (m msb : Model) (hmode : m.searchMode = true) (hb : msb.searchMode = false) :
    (m.update tiUpdate (Msg.key "q")).2 ≠ TCmd.quit
    ∧ (m.update tiUpdate (Msg.key "q")).1.searchValue = tiUpdate m.searchValue "q"
    ∧ (m.update tiUpdate (Msg.key "q")).1.tableRows
        = filterRowsList m.allRows (tiUpdate m.searchValue "q")
    ∧ (m.update tiUpdate (Msg.key "ctrl+c")).2 = TCmd.quit
    ∧ (msb.update tiUpdate (Msg.key "q")).2 = TCmd.quit := by
  rw [update_key_search tiUpdate m "q" hmode (by decide) (by decide) (by decide)]
  have hcc : m.update tiUpdate (Msg.key "ctrl+c") = (m, TCmd.quit) := by
    simp [Model.update]
  have hbq : msb.update tiUpdate (Msg.key "q") = (msb, TCmd.quit) := by
    simp [Model.update, hb]
  rw [hcc, hbq]
  exact ⟨fun h => TCmd.noConfusion h, rfl, rfl, rfl, rfl⟩

/-- Witness for C10 at concrete searching and browsing models. -/
theorem update_q_search_no_quit_witness :
    let m : Model := ⟨[["a", "b", "c"]], [["a", "b", "c"]], "", true, true⟩
    let msb : Model := ⟨[["a", "b", "c"]], [["a", "b", "c"]], "", false, false⟩
    m.searchMode = true ∧ msb.searchMode = false
    ∧ ((m.update tiAppend (Msg.key "q")).2 ≠ TCmd.quit
       ∧ (m.update tiAppend (Msg.key "q")).1.searchValue = tiAppend m.searchValue "q"
       ∧ (m.update tiAppend (Msg.key "q")).1.tableRows
           = filterRowsList m.allRows (tiAppend m.searchValue "q")
       ∧ (m.update tiAppend (Msg.key "ctrl+c")).2 = TCmd.quit
       ∧ (msb.update tiAppend (Msg.key "q")).2 = TCmd.quit) :=
  ⟨rfl, rfl, update_q_search_no_quit tiAppend _ _ rfl rfl⟩

/-- Claim C8: filtering with the empty query is the identity: the displayed
rows become exactly the full original row set, in original order. -/
theorem filterRows_empty_identity (m : Model) :
    (m.filterRows "").tableRows = m.allRows
    ∧ (m.filterRows "").allRows = m.allRows :=
  ⟨filterRowsList_empty_query m.allRows, rfl⟩

/-- Claim C7: when the file cannot be read or its content does not
unmarshal, `loadConfig` fails with the error and returns the empty zero
value `appConfig{}`, never a partially filled configuration. -/
theorem loadConfig_error_zero (readResult : Except String String)
    (unmarshal : String → Except String appConfig) :
    (∀ e, readResult = Except.error e →
        loadConfig readResult unmarshal = (appConfigZero, some e))
    ∧ (∀ data e, readResult = Except.ok data → unmarshal data = Except.error e →
        loadConfig readResult unmarshal = (appConfigZero, some e)) := by
  constructor
  · intro e he
    subst he
    rfl
  · intro data e hd hu
    subst hd
    simp [loadConfig, hu]

/-- Witness for C7: a failing read and a failing unmarshal both produce the
zero configuration together with the error. -/
theorem loadConfig_error_zero_witness :
    loadConfig (Except.error "boom") (fun _ : String => Except.ok appConfigZero)
        = (appConfigZero, some "boom")
    ∧ loadConfig (Except.ok "nonsense") (fun _ : String => Except.error "bad")
        = (appConfigZero, some "bad") :=
  ⟨(loadConfig_error_zero (Except.error "boom")
      (fun _ : String => Except.ok appConfigZero)).1 "boom" rfl,
   (loadConfig_error_zero (Except.ok "nonsense")
      (fun _ : String => Except.error "bad")).2 "nonsense" "bad" rfl rfl⟩

end NvimKeybindHelper
